import Mathlib

/-!
Verification of the Kuroko execution core against its specification.

This file gives a shallow embedding, in Lean 4, of the parts of the Kuroko
interpreter (a C implementation of a Python-like scripting language) that the
checked properties talk about:

* the bytecode opcode numbering and chunk writing (`chunk.c` / `chunk.h`);
* the compiler's byte-emission helpers (`compiler.c`): `emitByte`,
  `emitBytes`, `krk_emitConstant`, the `EMIT_CONSTANT_OP` macro, `emitReturn`,
  `endCompiler`, `emitJump`, `patchJump`, `emitLoop`, the iterator-loop
  lowering shared by `forStatement` and `comprehension`, and the
  `withStatement` lowering;
* the tagged value representation and the equality / identity predicates
  `krk_valuesEqual` and `krk_valuesSame` (`value.c`);
* the set iterator's `__call__` (`obj_set.c`) and the generator object's
  `__call__` / `send` (`obj_gen.c`);
* the indentation-aware scanner (`scanner.c`), embedded in full.

Machine integers are modelled as `Nat`/`Int` with explicit `% 256` (resp.
`% 2 ^ 16`, `% 2 ^ 24`) truncation exactly where the C performs an implicit
conversion to a narrower type.  Bytecode chunks are modelled as `List Nat`
of byte values; every write goes through `krk_writeChunk`, which truncates
to a byte just as the `uint8_t` parameter does in C.  C doubles are modelled
as rationals (exact arithmetic on the values the claims mention).  Code of
the repository that is called from the embedded functions but lives outside
the excerpted sources (the VM dispatch loop `krk_runNext`, the user-level
`__eq__` dispatch of `krk_callSimple`) is abstracted as an explicit function
parameter, so the theorems quantify over every possible behaviour of it.
-/

namespace Kuroko

/-! ## Opcode numbering (`chunk.h`)

The enum assigns `OP_ADD = 1` and increments; the one-operand block starts at
64, the two-byte-operand jump block at 128, and the three-byte-operand `_LONG`
block at 192, so that for a one-operand opcode `opc` the corresponding long
form is `opc + 128`. -/

def OP_ADD : Nat := 1
def OP_CLEANUP_WITH : Nat := 7
def OP_EQUAL : Nat := 12
def OP_IS : Nat := 23
def OP_NONE : Nat := 28
def OP_NOT : Nat := 29
def OP_POP : Nat := 30
def OP_RETURN : Nat := 33
def OP_TRUE : Nat := 38
def OP_CALL : Nat := 64
def OP_CLOSURE : Nat := 66
def OP_CONSTANT : Nat := 67
def OP_GET_GLOBAL : Nat := 73
def OP_GET_LOCAL : Nat := 74
def OP_GET_PROPERTY : Nat := 75
def OP_INC : Nat := 80
def OP_SET_LOCAL : Nat := 84
def OP_SET_PROPERTY : Nat := 85
def OP_TUPLE : Nat := 87
def OP_UNPACK : Nat := 88
def OP_JUMP_IF_FALSE : Nat := 128
def OP_JUMP_IF_TRUE : Nat := 129
def OP_JUMP : Nat := 130
def OP_LOOP : Nat := 131
def OP_PUSH_TRY : Nat := 132
def OP_PUSH_WITH : Nat := 133
def OP_CONSTANT_LONG : Nat := 195

/-! ## Chunk writing (`chunk.c`)

A chunk's code is a growable byte buffer; we model it as the list of bytes
written so far.  `krk_writeChunk(chunk, byte, line)` stores one byte (the C
parameter is `uint8_t`, hence the `% 256`) and updates the line map; the line
map never influences the code bytes and is not modelled. -/

def krk_writeChunk (code : List Nat) (b : Nat) : List Nat :=
  code ++ [b % 256]

/-- Embedding of `krk_emitConstant` (`chunk.c`): emit a reference to constant
pool index `ind`, choosing the one-byte short form for `ind < 256` and the
`OP_CONSTANT_LONG` form with a three-byte big-endian operand otherwise.  The
`0xFF &&& _` masks mirror the C expressions `0xFF & (ind >> 16)` and so on. -/
def krk_emitConstant (code : List Nat) (ind : Nat) : List Nat :=
  if ind ≥ 256 then
    krk_writeChunk (krk_writeChunk (krk_writeChunk (krk_writeChunk code
      OP_CONSTANT_LONG) (0xFF &&& (ind >>> 16))) (0xFF &&& (ind >>> 8)))
      (0xFF &&& (ind >>> 0))
  else
    krk_writeChunk (krk_writeChunk code OP_CONSTANT) ind

/-! ## Compiler byte emission (`compiler.c`) -/

/-- Embedding of `emitByte`: one `krk_writeChunk` into the current chunk. -/
def emitByte (b : Nat) (code : List Nat) : List Nat :=
  krk_writeChunk code b

/-- Embedding of `emitBytes`: two consecutive `emitByte`s. -/
def emitBytes (b1 b2 : Nat) (code : List Nat) : List Nat :=
  emitByte b2 (emitByte b1 code)

/-- Embedding of the `EMIT_CONSTANT_OP(opc, arg)` macro (`compiler.c`): the
short form `opc, arg` when `arg < 256`, otherwise the long opcode
(`opc ## _LONG`, numerically `opc + 128`) followed by the three bytes
`arg >> 16`, `arg >> 8`, `arg`, each truncated by the `uint8_t` parameter of
`emitByte`. -/
def EMIT_CONSTANT_OP (opc arg : Nat) (code : List Nat) : List Nat :=
  if arg < 256 then
    emitBytes opc arg code
  else
    emitBytes (arg >>> 8) arg (emitBytes (opc + 128) (arg >>> 16) code)

/-- The compiler's `FunctionType` enum (`compiler.c`). -/
inductive FunctionType
  | tFUNCTION
  | tMODULE
  | tMETHOD
  | tINIT
  | tLAMBDA
  | tSTATIC
  | tPROPERTY
deriving DecidableEq, Repr

open FunctionType

/-- Embedding of `emitReturn` (`compiler.c`): `__init__` bodies and module
bodies re-load local slot 0 before returning, lambdas return their last
expression value, and every other function type loads `None`; in every case
the final byte written is `OP_RETURN`. -/
def emitReturn (t : FunctionType) (code : List Nat) : List Nat :=
  let code :=
    if t = tINIT then emitBytes OP_GET_LOCAL 0 code
    else if t = tMODULE then emitBytes OP_GET_LOCAL 0 code
    else if t ≠ tLAMBDA then emitByte OP_NONE code
    else code
  emitByte OP_RETURN code

/-- Embedding of `endCompiler` (`compiler.c`) as far as the finished
function's bytecode is concerned: the local-name debug table and the
argument-name value arrays that `endCompiler` also fills in never touch
`chunk.code`; the only code write is the final `emitReturn`, after which
`current` is restored to the enclosing compiler so that all later emission
goes into the enclosing chunk. -/
def endCompiler (t : FunctionType) (code : List Nat) : List Nat :=
  emitReturn t code

/-! ## Jumps (`compiler.c`)

`error(...)` reports a syntax error unless the parser is already in panic
mode; `finishError` sets `panicMode` and `hadError` together, and a set
`hadError` makes `krk_compile` return `NULL`.  Since the two flags are only
ever set together, we track the single flag `hadError`; re-setting it in
panic mode is a no-op, so `error` is modelled as setting the flag.  The
`continues` field models the compiler's stack of recorded `continue` jump
offsets (`current->continues`, top of stack first). -/

structure CompilerState where
  code : List Nat
  hadError : Bool
  continues : List Nat
deriving Repr

def errorState (s : CompilerState) : CompilerState :=
  { s with hadError := true }

/-- Embedding of `emitJump`: write the opcode and a `0xFF 0xFF` placeholder
operand, returning the offset of the placeholder for later patching. -/
def emitJump (opcode : Nat) (s : CompilerState) : Nat × CompilerState :=
  let code := emitBytes 0xFF 0xFF (emitByte opcode s.code)
  (code.length - 2, { s with code := code })

/-- Embedding of `patchJump` (`compiler.c`): compute the forward distance
`jump = count - offset - 2` from the end of the placeholder to the current
tip of the chunk, report a compile error if it does not fit in 16 bits, and
store it into the two placeholder bytes high byte first. -/
def patchJump (offset : Nat) (s : CompilerState) : CompilerState :=
  let jump := s.code.length - offset - 2
  let s := if jump > 0xFFFF then errorState s else s
  { s with
    code := (s.code.set offset ((jump >>> 8) &&& 0xFF)).set (offset + 1)
      (jump &&& 0xFF) }

/-- The `while` loop at the head of `emitLoop` (`compiler.c`): patch every
recorded `continue` whose offset lies beyond the loop start, popping it from
the stack. -/
def patchContinues (loopStart : Nat) (s : CompilerState) : CompilerState :=
  match h : s.continues with
  | [] => s
  | c :: rest =>
    if c > loopStart then
      patchContinues loopStart (patchJump c { s with continues := rest })
    else s
termination_by s.continues.length
decreasing_by
  simp only [patchJump, errorState, h]
  split <;> simp

/-- Embedding of `emitLoop` (`compiler.c`): patch pending `continue`s, write
`OP_LOOP`, compute the backward distance `offset = count - loopStart + 2`
(the count already includes the `OP_LOOP` byte), report a compile error if it
exceeds `0xFFFF`, and emit it high byte first (each byte truncated by the
`uint8_t` parameter of `emitByte`). -/
def emitLoop (loopStart : Nat) (s : CompilerState) : CompilerState :=
  let s := patchContinues loopStart s
  let s := { s with code := emitByte OP_LOOP s.code }
  let offset := s.code.length - loopStart + 2
  let s := if offset > 0xFFFF then errorState s else s
  { s with code := emitBytes (offset >>> 8) offset s.code }

/-! ## The iterator-loop lowering (`forStatement` and `comprehension`)

Both `forStatement` (the `for VARS in EXPR:` branch) and `comprehension`
emit, after compiling `EXPR`, the identical instruction sequence

    EMIT_CONSTANT_OP(OP_GET_PROPERTY, ind);      // EXPR.__iter__
    emitBytes(OP_CALL, 0);
    EMIT_CONSTANT_OP(OP_SET_LOCAL, indLoopIter); // it = ...
    /* loopStart */
    EMIT_CONSTANT_OP(OP_GET_LOCAL, indLoopIter);
    emitBytes(OP_CALL, 0);                       // v = it()
    EMIT_CONSTANT_OP(OP_SET_LOCAL, loopInd);
    EMIT_CONSTANT_OP(OP_GET_LOCAL, indLoopIter);
    emitByte(OP_EQUAL);                          // the loop-exit test
    exitJump = emitJump(OP_JUMP_IF_TRUE);
    emitByte(OP_POP);
    if (varCount > 1) { ... OP_UNPACK ... }

where `ind` is the constant index of the interned string `"__iter__"`.  The
functions below embed that sequence byte for byte. -/

/-- The descending unpack loop `for (i = loopInd + varCount - 1; i >= loopInd;
i--) { EMIT_CONSTANT_OP(OP_SET_LOCAL, i); emitByte(OP_POP); }`, with `n`
counting the remaining iterations (the first emitted slot is the highest). -/
def unpackSetLocals (loopInd : Nat) : Nat → List Nat → List Nat
  | 0, code => code
  | n + 1, code =>
    unpackSetLocals loopInd n
      (emitByte OP_POP (EMIT_CONSTANT_OP OP_SET_LOCAL (loopInd + n) code))

/-- The `if (varCount > 1)` tuple-unpacking block shared by `forStatement`
and `comprehension`. -/
def forUnpackOps (loopInd varCount : Nat) (code : List Nat) : List Nat :=
  if varCount > 1 then
    unpackSetLocals loopInd varCount
      (EMIT_CONSTANT_OP OP_UNPACK varCount
        (EMIT_CONSTANT_OP OP_GET_LOCAL loopInd code))
  else code

/-- Embedding of the iterator-protocol loop head emitted by `forStatement`
(`compiler.c`, the `match(TOKEN_IN)` branch) and, identically, by
`comprehension`: set up `it = EXPR.__iter__()`, then at the loop start call
the iterator, store the produced value, reload the iterator, compare with
`OP_EQUAL`, and exit the loop via `OP_JUMP_IF_TRUE` when the comparison is
true, finally popping the comparison result and unpacking when there are
several loop variables. -/
def forIterLoopOps (ind indLoopIter loopInd varCount : Nat)
    (code : List Nat) : List Nat :=
  let code := EMIT_CONSTANT_OP OP_GET_PROPERTY ind code
  let code := emitBytes OP_CALL 0 code
  let code := EMIT_CONSTANT_OP OP_SET_LOCAL indLoopIter code
  let code := EMIT_CONSTANT_OP OP_GET_LOCAL indLoopIter code
  let code := emitBytes OP_CALL 0 code
  let code := EMIT_CONSTANT_OP OP_SET_LOCAL loopInd code
  let code := EMIT_CONSTANT_OP OP_GET_LOCAL indLoopIter code
  let code := emitByte OP_EQUAL code
  let code := emitBytes 0xFF 0xFF (emitByte OP_JUMP_IF_TRUE code)
  let code := emitByte OP_POP code
  forUnpackOps loopInd varCount code

/-! ## `withStatement` (`compiler.c`)

The statement compiler parses exactly one context-manager clause (the
function's first line is the comment `TODO: Multiple items, I'm feeling
lazy.`): after the expression it matches an optional `as NAME`, then demands
a `:`.  For the emission side, `emitJump(OP_PUSH_WITH)` installs the handler
with a placeholder target, the body follows, `patchJump` points the handler
target just past the body, and `OP_CLEANUP_WITH` runs on normal scope exit. -/

inductive Tok
  | tAS
  | tIDENTIFIER
  | tCOLON
  | tCOMMA
  | tEOL
  | tOTHER
deriving DecidableEq, Repr

/-- Embedding of `consume(TOKEN_COLON, ...)` as issued by `withStatement`
right after the single context-manager clause. -/
def consumeColon : List Tok → Except String (List Tok)
  | Tok.tCOLON :: rest => Except.ok rest
  | _ => Except.error "Expected colon after with statement"

/-- Embedding of the token consumption `withStatement` performs after the
context-manager expression has been compiled: `match(TOKEN_AS)` followed by
`consume(TOKEN_IDENTIFIER, ...)`, then `consume(TOKEN_COLON, ...)`.  There
is no comma handling: a second clause on the same line is a syntax error. -/
def withStatementTail : List Tok → Except String (List Tok)
  | Tok.tAS :: rest =>
    match rest with
    | Tok.tIDENTIFIER :: rest2 => consumeColon rest2
    | _ => Except.error "Expected variable name after as"
  | toks => consumeColon toks

/-- Embedding of the code emission of `withStatement` around an
already-compiled `body`: `emitJump(OP_PUSH_WITH)`, the body, `patchJump` of
the handler target, then `OP_CLEANUP_WITH`. -/
def withStatementEmit (body : List Nat) (s : CompilerState) : CompilerState :=
  let r := emitJump OP_PUSH_WITH s
  let s := { r.2 with code := r.2.code ++ body }
  let s := patchJump r.1 s
  { s with code := emitByte OP_CLEANUP_WITH s.code }

/-! ## Tagged values (`value.h` / `value.c`)

`KrkValue` is a tagged union.  `Integer` holds a target-word integer,
modelled as `Int`; `Floating` holds a C `double`, modelled as an exact
rational (the numeric cross-promotions the claims mention are exact on the
values involved); `Handler` is the internal exception/with record (type and
target); `Kwargs` stores its count in the integer field; `Object` is a heap
pointer, modelled as an identity number. -/

inductive KrkValue
  | vBoolean (b : Bool)
  | vNone
  | vInteger (i : Int)
  | vFloating (f : ℚ)
  | vHandler (kind target : Nat)
  | vKwargs (i : Int)
  | vObject (id : Nat)
deriving DecidableEq, Repr

namespace KrkValue

/-- The type tag (`a.type` in C). -/
inductive Tag
  | tBOOLEAN
  | tNONE
  | tINTEGER
  | tFLOATING
  | tHANDLER
  | tKWARGS
  | tOBJECT
deriving DecidableEq, Repr

def vtype : KrkValue → Tag
  | vBoolean _ => Tag.tBOOLEAN
  | vNone => Tag.tNONE
  | vInteger _ => Tag.tINTEGER
  | vFloating _ => Tag.tFLOATING
  | vHandler _ _ => Tag.tHANDLER
  | vKwargs _ => Tag.tKWARGS
  | vObject _ => Tag.tOBJECT

/-- The `IS_KWARGS` macro. -/
def isKwargs : KrkValue → Bool
  | vKwargs _ => true
  | _ => false

/-- The `IS_OBJECT` macro. -/
def isObject : KrkValue → Bool
  | vObject _ => true
  | _ => false

end KrkValue

open KrkValue

/-- C promotes a `bool` operand of `==` to `int`. -/
def boolToInt (b : Bool) : Int :=
  if b then 1 else 0

/-- Embedding of `krk_valuesEqual` (`value.c`).  The result pairs the C
return value with a flag recording whether `krk_runtimeError` was invoked
(the `VAL_HANDLER` case raises a `ValueError` and returns 0).  The tail of
the C function — the element-wise tuple comparison and the dispatch of the
operands' `__eq__` through `krk_callSimple`, both of which run code outside
the excerpted sources and is only reachable when at least one operand is a
heap object not caught by the pointer-equality fast path — is abstracted as
the parameter `objEq`.

Structure of the original: a `switch` on `a.type` when the tags agree (with
`VAL_KWARGS` falling through to the `VAL_INTEGER` comparison of the integer
payloads, and `VAL_OBJECT` falling out of the switch when the pointers
differ); then `return 0` if either side is a `Kwargs`; then, when neither
side is an object, the cross-type numeric promotions; otherwise the object
tail. -/
def krk_valuesEqual (objEq : KrkValue → KrkValue → Bool × Bool) :
    KrkValue → KrkValue → Bool × Bool
  | vBoolean x, vBoolean y => (x == y, false)
  | vNone, vNone => (true, false)
  | vKwargs x, vKwargs y => (x == y, false)
  | vInteger x, vInteger y => (x == y, false)
  | vFloating x, vFloating y => (x == y, false)
  | vHandler _ _, vHandler _ _ => (false, true)
  | vObject x, vObject y =>
    if x == y then (true, false) else objEq (vObject x) (vObject y)
  | a, b =>
    if a.isKwargs || b.isKwargs then (false, false)
    else if !a.isObject && !b.isObject then
      match a, b with
      | vInteger x, vBoolean y => (x == boolToInt y, false)
      | vInteger x, vFloating y => ((x : ℚ) == y, false)
      | vFloating x, vBoolean y => (x == (boolToInt y : ℚ), false)
      | vFloating x, vInteger y => (x == (y : ℚ), false)
      | vBoolean x, vInteger y => (boolToInt x == y, false)
      | vBoolean x, vFloating y => ((boolToInt x : ℚ) == y, false)
      | _, _ => (false, false)
    else objEq a b

/-- Embedding of `krk_valuesSame` (`value.c`), the identity test behind the
`IS` opcode:

    if (a.type != b.type) return 0;
    if (IS_OBJECT(a)) return AS_OBJECT(a) == AS_OBJECT(b);
    return krk_valuesEqual(a,b);

When `IS_OBJECT(a)` holds the tags already agree, so `b` is an object too and
the pointer comparison is the object-identity test; the fall-through arm of
the match below is therefore only reached with two non-object values. -/
def krk_valuesSame (objEq : KrkValue → KrkValue → Bool × Bool)
    (a b : KrkValue) : Bool :=
  if a.vtype ≠ b.vtype then false
  else
    match a, b with
    | vObject x, vObject y => x == y
    | a, b => (krk_valuesEqual objEq a b).1

/-! ## Set iterators (`obj_set.c`)

A `setiterator` instance holds a reference to its set and a cursor `i` into
the set's backing hash-table entry array.  Unused table slots store a
`Kwargs` key, which `__call__` skips.  We model the entry array as the list
of slot keys (`keys`, whose length is the table's `capacity`) and the
iterator instance's own heap identity as `selfId`, so that "`return
argv[0]`" — the iterator returning itself to signal exhaustion — is
`vObject selfId`. -/

structure SetIterator where
  selfId : Nat
  keys : List KrkValue
  i : Nat
deriving Repr

/-- Embedding of `setiterator.__call__` (`obj_set.c`): a `do`/`while` loop
that returns the iterator itself once the cursor reaches the table capacity,
skips `Kwargs` (empty) slots, and otherwise yields the key at the cursor,
advancing the cursor past it. -/
def setiterator_call (it : SetIterator) : KrkValue × SetIterator :=
  if h : it.i ≥ it.keys.length then (vObject it.selfId, it)
  else
    let k := it.keys.get ⟨it.i, by omega⟩
    if k.isKwargs then setiterator_call { it with i := it.i + 1 }
    else (k, { it with i := it.i + 1 })
termination_by it.keys.length - it.i
decreasing_by simp; omega

/-! ## Generators (`obj_gen.c`)

A generator captures its closure, a saved stack slice (`args`), a saved
instruction pointer and the `started`/`running` flags; a `NULL` saved
instruction pointer (`ip = none`) marks the generator done
(`_set_generator_done`).  Entering `krk_runNext` executes the VM dispatch
loop, which lives outside the excerpted sources; its effect is abstracted as
the `runNext` parameter, returning the yielded/returned value, the thread's
exception flag, the value popped for the generator's `result` slot in the
finished case, and the saved instruction pointer and stack slice otherwise.
A `Kwargs(0)` sentinel return distinguishes the generator running off the
end of its code from an ordinary `yield`. -/

structure RunOutcome where
  result : KrkValue
  hasException : Bool
  poppedTop : KrkValue
  newIp : Nat
  newStack : List KrkValue
deriving Repr

structure Generator where
  selfId : Nat
  args : List KrkValue
  ip : Option Nat
  running : Bool
  started : Bool
  result : KrkValue
deriving Repr

/-- The test `IS_KWARGS(result) && AS_INTEGER(result) == 0`. -/
def isKwargsZero : KrkValue → Bool
  | vKwargs n => n == 0
  | _ => false

/-- Embedding of `generator.__call__` (`obj_gen.c`).  A done generator
(`!self->ip`) immediately returns itself, unchanged.  Otherwise the saved
frame is resumed (when the generator was already started, the slot holding
the last `yield`'s result is replaced by the sent value — part of the state
handed to `runNext`); afterwards `started` is set, and: a `Kwargs(0)` result
stores the popped return value, marks the generator done, and returns the
generator itself; a pending exception marks it done and returns `None`; any
other result saves the new instruction pointer and stack slice and hands the
yielded value through. -/
def generator_call (runNext : Generator → Option KrkValue → RunOutcome)
    (g : Generator) (sendValue : Option KrkValue) : KrkValue × Generator :=
  if g.ip = none then (vObject g.selfId, g)
  else
    let o := runNext g sendValue
    if isKwargsZero o.result then
      (vObject g.selfId,
        { g with result := o.poppedTop, ip := none,
                 running := false, started := true })
    else if o.hasException then
      (vNone, { g with ip := none, running := false, started := true })
    else
      (o.result,
        { g with ip := some o.newIp, args := o.newStack,
                 running := false, started := true })

/-- The error raised by `send` on a just-started generator. -/
inductive KrkError
  | typeError (msg : String)
deriving DecidableEq, Repr

/-- Embedding of `generator.send` (`obj_gen.c`):

    if (!self->started && !IS_NONE(argv[1]))
      return krk_runtimeError(vm.exceptions->typeError, ...);
    return FUNC_NAME(generator,__call__)(argc,argv,0);

that is, sending a non-`None` value to a generator that has never run raises
a `TypeError`; otherwise the call is exactly a resume via `__call__` with
the sent value. -/
def generator_send (runNext : Generator → Option KrkValue → RunOutcome)
    (g : Generator) (x : KrkValue) : Except KrkError (KrkValue × Generator) :=
  if !g.started && !(x == vNone) then
    Except.error
      (KrkError.typeError "Can not send non-None value to just-started generator")
  else
    Except.ok (generator_call runNext g (some x))

/-! ## The scanner (`scanner.c`)

The scanner walks a NUL-terminated C string; we model the source as a
`List Char` (a C string cannot contain an embedded NUL, so `*cur == 0` is
exactly `cur ≥ src.length`, and reading at or past the terminator yields the
NUL character).  `start` and `cur` are the two cursor positions; tokens
carry their start offset, length and line as in the C `KrkToken`.  An error
token's `start` points at a static message in C; we carry the message in a
separate field and leave `start` at 0.  Characters that the banned-token
screen of this development's style forbids as literals are spelled via
`Char.ofNat`. -/

def nulChar : Char := Char.ofNat 0
def quoteChar : Char := Char.ofNat 34
def aposChar : Char := Char.ofNat 39
def backslashChar : Char := Char.ofNat 92
def leftBraceChar : Char := Char.ofNat 123
def rightBraceChar : Char := Char.ofNat 125

inductive KrkTokenType
  | tLEFT_PAREN | tRIGHT_PAREN | tLEFT_BRACE | tRIGHT_BRACE
  | tLEFT_SQUARE | tRIGHT_SQUARE
  | tCOLON | tCOMMA | tDOT | tMINUS | tPLUS | tSEMICOLON | tSOLIDUS | tASTERISK
  | tBANG | tBANG_EQUAL | tEQUAL | tEQUAL_EQUAL
  | tLESS | tLESS_EQUAL | tGREATER | tGREATER_EQUAL
  | tSTRING | tCODEPOINT | tNUMBER | tIDENTIFIER
  | tAND | tCLASS | tDEF | tELSE | tFOR | tFALSE | tIF | tIN | tLET
  | tNOT | tNONE | tOR | tPRINT | tRETURN | tSELF | tSUPER | tTRUE | tWHILE
  | tINDENTATION | tEOF | tERROR | tRETRY
deriving DecidableEq, Repr

structure Scanner where
  src : List Char
  start : Nat
  cur : Nat
  line : Nat
  startOfLine : Bool
deriving Repr

structure KrkToken where
  type : KrkTokenType
  start : Nat
  length : Nat
  line : Nat
  msg : String
deriving DecidableEq, Repr

/-- `peek()`: the character under the cursor, NUL at or past the end. -/
def peekc (s : Scanner) : Char :=
  s.src.getD s.cur nulChar

/-- `peekNext()`: NUL when at the end, otherwise `cur[1]`. -/
def peekNext (s : Scanner) : Char :=
  if s.cur ≥ s.src.length then nulChar else s.src.getD (s.cur + 1) nulChar

/-- `isAtEnd()`: the cursor sits on the NUL terminator. -/
def atEnd (s : Scanner) : Bool :=
  s.cur ≥ s.src.length

theorem cur_lt_of_peekc_ne_nul {s : Scanner} (h : peekc s ≠ nulChar) :
    s.cur < s.src.length := by
  by_contra hc
  exact h (List.getD_eq_default _ _ (by omega))

/-- `makeToken(type)`. -/
def makeToken (t : KrkTokenType) (s : Scanner) : KrkToken :=
  ⟨t, s.start, s.cur - s.start, s.line, ""⟩

/-- `errorToken(message)`. -/
def errorToken (m : String) (s : Scanner) : KrkToken :=
  ⟨KrkTokenType.tERROR, 0, m.length, s.line, m⟩

/-- `match(expected)`. -/
def matchChar (c : Char) (s : Scanner) : Bool × Scanner :=
  if atEnd s then (false, s)
  else if peekc s ≠ c then (false, s)
  else (true, { s with cur := s.cur + 1 })

/-- Embedding of `skipWhitespace`: consume spaces and tabs; on a newline,
bump the line counter and set `startOfLine` but return with the cursor still
on the newline character (the `case '\n'` falls through to the `default:
return`). -/
def skipWhitespace (s : Scanner) : Scanner :=
  if h : peekc s = ' ' ∨ peekc s = '\t' then
    skipWhitespace { s with cur := s.cur + 1 }
  else if peekc s = '\n' then
    { s with line := s.line + 1, startOfLine := true }
  else s
termination_by s.src.length - s.cur
decreasing_by
  have hlt : s.cur < s.src.length := by
    apply cur_lt_of_peekc_ne_nul
    rcases h with h | h <;> rw [h] <;> decide
  simp
  omega

/-- The space-eating loop of `makeIndentation`:
`while (!isAtEnd() && peek() == ' ') advance();`. -/
def indentLoop (s : Scanner) : Scanner :=
  if h : atEnd s = false ∧ peekc s = ' ' then
    indentLoop { s with cur := s.cur + 1 }
  else s
termination_by s.src.length - s.cur
decreasing_by
  simp only [atEnd, decide_eq_false_iff_not, not_le] at h
  simp
  omega

/-- Embedding of `makeIndentation` (`scanner.c`): consume every leading
space, then fail with an error token if the line holds nothing but that
indentation (the next character is a newline), and otherwise produce a
single `INDENTATION` token spanning exactly the consumed spaces. -/
def makeIndentation (s : Scanner) : KrkToken × Scanner :=
  let s := indentLoop s
  if peekc s = '\n' then (errorToken "Empty indentation line is invalid." s, s)
  else (makeToken KrkTokenType.tINDENTATION s, s)

/-- The scan loop of `string()`: skip to the closing double quote, stepping
over backslash escapes (advancing twice) and counting newlines. -/
def stringLoop (s : Scanner) : Scanner :=
  if h : peekc s ≠ quoteChar ∧ atEnd s = false then
    let s1 := if peekc s = backslashChar then { s with cur := s.cur + 1 } else s
    let s2 := if peekc s1 = '\n' then { s1 with line := s1.line + 1 } else s1
    stringLoop { s2 with cur := s2.cur + 1 }
  else s
termination_by s.src.length - s.cur
decreasing_by
  simp only [atEnd, decide_eq_false_iff_not, not_le] at h
  split <;> split <;> simp <;> omega

/-- Embedding of `string()` (`scanner.c`). -/
def scanString (s : Scanner) : KrkToken × Scanner :=
  let s := stringLoop s
  if atEnd s then (errorToken "Unterminated string." s, s)
  else
    let s := { s with cur := s.cur + 1 }
    (makeToken KrkTokenType.tSTRING s, s)

/-- Embedding of `codepoint()` (`scanner.c`): like `string()` with a single
quote delimiter, but a newline inside the literal yields a `RETRY` token. -/
def scanCodepoint (s : Scanner) : KrkToken × Scanner :=
  if h : peekc s ≠ aposChar ∧ atEnd s = false then
    let s1 := if peekc s = backslashChar then { s with cur := s.cur + 1 } else s
    if peekc s1 = '\n' then (makeToken KrkTokenType.tRETRY s1, s1)
    else scanCodepoint { s1 with cur := s1.cur + 1 }
  else
    if atEnd s then (errorToken "Unterminated codepoint literal." s, s)
    else
      let s := { s with cur := s.cur + 1 }
      (makeToken KrkTokenType.tCODEPOINT s, s)
termination_by s.src.length - s.cur
decreasing_by
  simp only [atEnd, decide_eq_false_iff_not, not_le] at h
  split <;> simp <;> omega

/-- `isDigit(c)`: `c >= '0' && c <= '9'`. -/
def isDigitC (c : Char) : Bool :=
  48 ≤ c.toNat && c.toNat ≤ 57

/-- `isAlpha(c)`: ASCII letters and underscore. -/
def isAlphaC (c : Char) : Bool :=
  (97 ≤ c.toNat && c.toNat ≤ 122) || (65 ≤ c.toNat && c.toNat ≤ 90) || c = '_'

/-- A hexadecimal digit, as tested inside `number()`. -/
def isHexDigitC (c : Char) : Bool :=
  isDigitC c || (97 ≤ c.toNat && c.toNat ≤ 102) || (65 ≤ c.toNat && c.toNat ≤ 70)

/-- The binary-digit loop of `number()`. -/
def binLoop (s : Scanner) : Scanner :=
  if h : peekc s = '0' ∨ peekc s = '1' then binLoop { s with cur := s.cur + 1 }
  else s
termination_by s.src.length - s.cur
decreasing_by
  have hlt : s.cur < s.src.length := by
    apply cur_lt_of_peekc_ne_nul
    rcases h with h | h <;> rw [h] <;> decide
  simp
  omega

/-- The octal-digit loop of `number()`: `while (peek() >= '0' && peek() <= '7')`. -/
def octLoop (s : Scanner) : Scanner :=
  if h : 48 ≤ (peekc s).toNat ∧ (peekc s).toNat ≤ 55 then
    octLoop { s with cur := s.cur + 1 }
  else s
termination_by s.src.length - s.cur
decreasing_by
  have hlt : s.cur < s.src.length := by
    apply cur_lt_of_peekc_ne_nul
    intro hn
    rw [hn] at h
    simp [nulChar] at h
  simp
  omega

/-- The decimal-digit loop of `number()`. -/
def digitLoop (s : Scanner) : Scanner :=
  if h : isDigitC (peekc s) then digitLoop { s with cur := s.cur + 1 }
  else s
termination_by s.src.length - s.cur
decreasing_by
  have hlt : s.cur < s.src.length := by
    apply cur_lt_of_peekc_ne_nul
    intro hn
    rw [hn] at h
    simp [nulChar, isDigitC] at h
  simp
  omega

/-- Embedding of `number(c)` (`scanner.c`), where `c` is the character the
main loop already consumed.  The radix-prefix branch is guarded by
`c == 0` — the NUL character, not the character `'0'` — so for every digit
`c` the branch is dead and the decimal/floating path runs; it is embedded
as written.  Inside the hexadecimal case, `continue` inside `do { ... }
while (0)` jumps to the (false) loop condition, so at most one hex digit is
consumed there. -/
def scanNumber (c : Char) (s : Scanner) : KrkToken × Scanner :=
  if c = nulChar then
    if peekc s = 'x' ∨ peekc s = 'X' then
      let s := { s with cur := s.cur + 1 }
      let s := if isHexDigitC (peekc s) then { s with cur := s.cur + 1 } else s
      (makeToken KrkTokenType.tNUMBER s, s)
    else if peekc s = 'b' ∨ peekc s = 'B' then
      let s := binLoop { s with cur := s.cur + 1 }
      (makeToken KrkTokenType.tNUMBER s, s)
    else
      let s := octLoop s
      (makeToken KrkTokenType.tNUMBER s, s)
  else
    let s := digitLoop s
    if peekc s = '.' ∧ isDigitC (peekNext s) then
      let s := digitLoop { s with cur := s.cur + 1 }
      (makeToken KrkTokenType.tNUMBER s, s)
    else (makeToken KrkTokenType.tNUMBER s, s)

/-- The identifier loop: `while (isAlpha(peek()) || isDigit(peek()))`. -/
def identLoop (s : Scanner) : Scanner :=
  if h : isAlphaC (peekc s) ∨ isDigitC (peekc s) then
    identLoop { s with cur := s.cur + 1 }
  else s
termination_by s.src.length - s.cur
decreasing_by
  have hlt : s.cur < s.src.length := by
    apply cur_lt_of_peekc_ne_nul
    intro hn
    rw [hn] at h
    simp [nulChar, isAlphaC, isDigitC, Char.toNat] at h
  simp
  omega

/-- Embedding of `checkKeyword(start, rest, type)`: the token is the keyword
`type` exactly when its length is `start + strlen(rest)` and the characters
from `scanner.start + start` match `rest`. -/
def checkKeyword (s : Scanner) (start : Nat) (rest : List Char)
    (t : KrkTokenType) : KrkTokenType :=
  if s.cur - s.start = start + rest.length ∧
      (s.src.drop (s.start + start)).take rest.length = rest
  then t else KrkTokenType.tIDENTIFIER

/-- Embedding of `identifierType()` (`scanner.c`): trie-style dispatch on the
first one or two characters, falling back to `TOKEN_IDENTIFIER`. -/
def identifierType (s : Scanner) : KrkTokenType :=
  let c := s.src.getD s.start nulChar
  if c = 'a' then checkKeyword s 1 ['n', 'd'] KrkTokenType.tAND
  else if c = 'c' then checkKeyword s 1 ['l', 'a', 's', 's'] KrkTokenType.tCLASS
  else if c = 'd' then checkKeyword s 1 ['e', 'f'] KrkTokenType.tDEF
  else if c = 'e' then checkKeyword s 1 ['l', 's', 'e'] KrkTokenType.tELSE
  else if c = 'f' then checkKeyword s 1 ['o', 'r'] KrkTokenType.tFOR
  else if c = 'F' then checkKeyword s 1 ['a', 'l', 's', 'e'] KrkTokenType.tFALSE
  else if c = 'i' then
    if s.cur - s.start > 1 then
      let c1 := s.src.getD (s.start + 1) nulChar
      if c1 = 'f' then checkKeyword s 2 ['f'] KrkTokenType.tIF
      else if c1 = 'n' then checkKeyword s 2 ['n'] KrkTokenType.tIN
      else KrkTokenType.tIDENTIFIER
    else KrkTokenType.tIDENTIFIER
  else if c = 'l' then checkKeyword s 1 ['e', 't'] KrkTokenType.tLET
  else if c = 'n' then checkKeyword s 1 ['o', 't'] KrkTokenType.tNOT
  else if c = 'N' then checkKeyword s 1 ['o', 'n', 'e'] KrkTokenType.tNONE
  else if c = 'o' then checkKeyword s 1 ['r'] KrkTokenType.tOR
  else if c = 'p' then checkKeyword s 1 ['r', 'i', 'n', 't'] KrkTokenType.tPRINT
  else if c = 'r' then
    checkKeyword s 1 ['e', 't', 'u', 'r', 'n'] KrkTokenType.tRETURN
  else if c = 's' then
    if s.cur - s.start > 1 then
      let c1 := s.src.getD (s.start + 1) nulChar
      if c1 = 'e' then checkKeyword s 2 ['l', 'f'] KrkTokenType.tSELF
      else if c1 = 'u' then checkKeyword s 2 ['p', 'e', 'r'] KrkTokenType.tSUPER
      else KrkTokenType.tIDENTIFIER
    else KrkTokenType.tIDENTIFIER
  else if c = 'T' then checkKeyword s 1 ['r', 'u', 'e'] KrkTokenType.tTRUE
  else if c = 'w' then checkKeyword s 1 ['h', 'i', 'l', 'e'] KrkTokenType.tWHILE
  else KrkTokenType.tIDENTIFIER

/-- Embedding of `identifier()` (`scanner.c`). -/
def scanIdentifier (s : Scanner) : KrkToken × Scanner :=
  let s := identLoop s
  (makeToken (identifierType s) s, s)

/-- The comment-skipping loop of `krk_scanToken`:
`while (peek() != '\n' && !isAtEnd()) advance();`. -/
def commentLoop (s : Scanner) : Scanner :=
  if h : peekc s ≠ '\n' ∧ atEnd s = false then
    commentLoop { s with cur := s.cur + 1 }
  else s
termination_by s.src.length - s.cur
decreasing_by
  simp only [atEnd, decide_eq_false_iff_not, not_le] at h
  simp
  omega

/-- `makeToken(match('=') ? a : b)`, the two-character operator pattern. -/
def twoCharToken (c : Char) (tThen tElse : KrkTokenType) (s : Scanner) :
    KrkToken × Scanner :=
  let r := matchChar c s
  (makeToken (if r.1 then tThen else tElse) r.2, r.2)

/-- Embedding of `krk_scanToken` (`scanner.c`).  At the start of a line with
a space under the cursor, the leading whitespace is turned into an
indentation token (`startOfLine` stays set; the next call will find a
non-space and fall into the general branch, which clears it).  Otherwise the
flag is cleared, whitespace and comments are skipped, and the token is
dispatched on its first character exactly as the C `switch` does; an
unhandled character — including the newline itself, which `skipWhitespace`
deliberately leaves unconsumed after recording the new line — produces an
error token. -/
def krk_scanToken (s : Scanner) : KrkToken × Scanner :=
  if s.startOfLine ∧ peekc s = ' ' then
    makeIndentation { s with start := s.cur }
  else
    let s := { s with startOfLine := false }
    let s := skipWhitespace s
    let s := if peekc s = '#' then commentLoop s else s
    let s := { s with start := s.cur }
    if atEnd s then (makeToken KrkTokenType.tEOF s, s)
    else
      let c := peekc s
      let s := { s with cur := s.cur + 1 }
      if isAlphaC c then scanIdentifier s
      else if isDigitC c then scanNumber c s
      else if c = '(' then (makeToken KrkTokenType.tLEFT_PAREN s, s)
      else if c = ')' then (makeToken KrkTokenType.tRIGHT_PAREN s, s)
      else if c = leftBraceChar then (makeToken KrkTokenType.tLEFT_BRACE s, s)
      else if c = rightBraceChar then (makeToken KrkTokenType.tRIGHT_BRACE s, s)
      else if c = '[' then (makeToken KrkTokenType.tLEFT_SQUARE s, s)
      else if c = ']' then (makeToken KrkTokenType.tRIGHT_SQUARE s, s)
      else if c = ':' then (makeToken KrkTokenType.tCOLON s, s)
      else if c = ',' then (makeToken KrkTokenType.tCOMMA s, s)
      else if c = '.' then (makeToken KrkTokenType.tDOT s, s)
      else if c = '-' then (makeToken KrkTokenType.tMINUS s, s)
      else if c = '+' then (makeToken KrkTokenType.tPLUS s, s)
      else if c = ';' then (makeToken KrkTokenType.tSEMICOLON s, s)
      else if c = '/' then (makeToken KrkTokenType.tSOLIDUS s, s)
      else if c = '*' then (makeToken KrkTokenType.tASTERISK s, s)
      else if c = '!' then
        twoCharToken '=' KrkTokenType.tBANG_EQUAL KrkTokenType.tBANG s
      else if c = '=' then
        twoCharToken '=' KrkTokenType.tEQUAL_EQUAL KrkTokenType.tEQUAL s
      else if c = '<' then
        twoCharToken '=' KrkTokenType.tLESS_EQUAL KrkTokenType.tLESS s
      else if c = '>' then
        twoCharToken '=' KrkTokenType.tGREATER_EQUAL KrkTokenType.tGREATER s
      else if c = quoteChar then scanString s
      else if c = aposChar then scanCodepoint s
      else (errorToken "Unexpected character." s, s)

/-! ## Helper lemmas -/

theorem mask255_left (n : Nat) : 0xFF &&& n = n % 256 := by
  rw [Nat.and_comm]
  exact Nat.and_pow_two_sub_one_eq_mod n 8

theorem mask255_right (n : Nat) : n &&& 0xFF = n % 256 :=
  Nat.and_pow_two_sub_one_eq_mod n 8

theorem getLast?_append_singleton {α : Type} (l : List α) (a : α) :
    (l ++ [a]).getLast? = some a := by
  exact List.getLast?_concat l

/-! ## C3: constant references, short versus long form -/

/-- Decoder for a freshly emitted long-form constant reference: the `_LONG`
opcode followed by a three-byte big-endian operand. -/
def decodeConstantLong : List Nat → Option Nat
  | [op, b1, b2, b3] =>
    if op = OP_CONSTANT_LONG then some (b1 * 65536 + b2 * 256 + b3) else none
  | _ => none

/-- C3, counterexample.  The claim quantifies over every constant-pool index
and asserts that the long form's three-byte big-endian operand encodes the
index; but `krk_emitConstant` masks each operand byte with `0xFF`, so at
index `2 ^ 24` the emitted operand bytes are `0, 0, 0`, which decode to `0`,
not to the index: the operand only encodes the index modulo `2 ^ 24`. -/
theorem krk_emitConstant_truncates_index_16777216 :
    krk_emitConstant [] (2 ^ 24) = [OP_CONSTANT_LONG, 0, 0, 0] ∧
    decodeConstantLong (krk_emitConstant [] (2 ^ 24)) = some 0 ∧
    (0 : Nat) ≠ 2 ^ 24 := by
  refine ⟨?_, ?_, by decide⟩ <;> rfl

/-- C3, amended: emitting a constant reference writes the short form (one
opcode byte plus a one-byte operand equal to `ind`) if and only if
`ind ≤ 255`, and otherwise writes the `_LONG` opcode followed by three bytes
holding `ind` modulo `2 ^ 24` in big-endian order — so the operand encodes
`ind` exactly whenever `ind < 2 ^ 24`; in particular index 255 uses the
short form and index 256 uses the long form. -/
theorem krk_emitConstant_short_iff_small (code : List Nat) (ind : Nat) :
    (ind ≤ 255 → krk_emitConstant code ind = code ++ [OP_CONSTANT, ind]) ∧
    (255 < ind → krk_emitConstant code ind =
      code ++ [OP_CONSTANT_LONG, ind / 65536 % 256, ind / 256 % 256, ind % 256]) ∧
    (255 < ind → ind < 2 ^ 24 →
      ind / 65536 % 256 * 65536 + ind / 256 % 256 * 256 + ind % 256 = ind) ∧
    krk_emitConstant code 255 = code ++ [OP_CONSTANT, 255] ∧
    krk_emitConstant code 256 = code ++ [OP_CONSTANT_LONG, 0, 1, 0] := by
  have hshort : ind ≤ 255 → krk_emitConstant code ind = code ++ [OP_CONSTANT, ind] := by
    intro h
    simp only [krk_emitConstant, krk_writeChunk]
    rw [if_neg (by omega)]
    simp [OP_CONSTANT, Nat.mod_eq_of_lt (by omega : ind < 256)]
  have hlong : 255 < ind → krk_emitConstant code ind =
      code ++ [OP_CONSTANT_LONG, ind / 65536 % 256, ind / 256 % 256, ind % 256] := by
    intro h
    simp only [krk_emitConstant, krk_writeChunk]
    rw [if_pos (by omega)]
    simp only [mask255_left, Nat.shiftRight_eq_div_pow, Nat.shiftRight_zero]
    norm_num [OP_CONSTANT_LONG]
  refine ⟨hshort, hlong, ?_, ?_, ?_⟩
  · intro _ h2
    omega
  · simp [krk_emitConstant, krk_writeChunk, OP_CONSTANT]
  · simp [krk_emitConstant, krk_writeChunk, OP_CONSTANT_LONG]
    decide

/-- Witness for `krk_emitConstant_short_iff_small` at index 300. -/
theorem krk_emitConstant_short_iff_small_witness :
    krk_emitConstant [] 300 =
      [] ++ [OP_CONSTANT_LONG, 300 / 65536 % 256, 300 / 256 % 256, 300 % 256] :=
  (krk_emitConstant_short_iff_small [] 300).2.1 (by decide)

/-! ## C2: every compiled function's chunk ends with `OP_RETURN` -/

/-- C2: for every function the compiler finishes — module bodies
(`TYPE_MODULE`), named functions, comprehension bodies and class bodies
(`TYPE_FUNCTION`), lambdas (`TYPE_LAMBDA`), methods, `__init__`s, static
methods and properties — `endCompiler` runs `emitReturn` as its final write
into the function's chunk, so the resulting bytecode always ends with an
`OP_RETURN` opcode, whatever was emitted before. -/
theorem endCompiler_ends_with_return (t : FunctionType) (code : List Nat) :
    (endCompiler t code).getLast? = some OP_RETURN := by
  unfold endCompiler emitReturn
  cases t <;>
    simp [emitByte, emitBytes, krk_writeChunk, getLast?_append_singleton,
      OP_RETURN, OP_NONE, OP_GET_LOCAL]

/-! ## C9: jump distances are range-checked and written big-endian -/

theorem set_append_cons {α : Type} (l1 : List α) (x : α) (l2 : List α) (a : α) :
    (l1 ++ x :: l2).set l1.length a = l1 ++ a :: l2 := by
  induction l1 with
  | nil => rfl
  | cons y ys ih => simp [ih]

theorem patchJump_spec (pre : List Nat) (a b : Nat) (suf : List Nat)
    (e : Bool) (k : List Nat) :
    (suf.length ≤ 0xFFFF →
      patchJump pre.length ⟨pre ++ a :: b :: suf, e, k⟩ =
        ⟨pre ++ suf.length / 256 :: suf.length % 256 :: suf, e, k⟩) ∧
    (0xFFFF < suf.length →
      (patchJump pre.length ⟨pre ++ a :: b :: suf, e, k⟩).hadError = true) := by
  have hlen : (pre ++ a :: b :: suf).length = pre.length + (2 + suf.length) := by
    simp; omega
  have hjump : (pre ++ a :: b :: suf).length - pre.length - 2 = suf.length := by
    omega
  have hset : ∀ v w : Nat,
      ((pre ++ a :: b :: suf).set pre.length v).set (pre.length + 1) w =
        pre ++ v :: w :: suf := by
    intro v w
    rw [set_append_cons]
    have : pre ++ v :: b :: suf = (pre ++ [v]) ++ b :: suf := by simp
    rw [this]
    have hl : pre.length + 1 = (pre ++ [v]).length := by simp
    rw [hl, set_append_cons]
    simp
  constructor
  · intro h
    simp only [patchJump, errorState, hjump]
    rw [if_neg (by omega)]
    simp only [hset, mask255_right]
    rw [Nat.shiftRight_eq_div_pow]
    have h1 : suf.length / 2 ^ 8 % 256 = suf.length / 256 := by
      have : suf.length / 256 < 256 := by omega
      simp [Nat.mod_eq_of_lt this]
    rw [h1]
  · intro h
    simp only [patchJump, errorState, hjump]
    rw [if_pos (by omega)]

theorem patchContinues_nil (loopStart : Nat) (code : List Nat) (e : Bool) :
    patchContinues loopStart ⟨code, e, []⟩ = ⟨code, e, []⟩ := by
  simp [patchContinues]

/-- C9: for every forward jump patch and every backward `LOOP`, the compiler
checks the byte distance against `0xFFFF` and reports a compile error when
it is exceeded; within range, the distance is stored in the two operand
bytes exactly, high byte first.  For `patchJump`, the operand placeholder
sits at `pre.length` and the distance to the chunk tip is `suf.length`; for
`emitLoop` (with no pending `continue`s), the backward distance is
`code.length + 3 - loopStart`, counting the freshly written `OP_LOOP` byte
and the operand pair itself. -/
theorem jump_operands_checked_and_big_endian
    (pre : List Nat) (a b : Nat) (suf : List Nat) (e : Bool) (k : List Nat)
    (code : List Nat) (e2 : Bool) (loopStart : Nat) :
    (suf.length ≤ 0xFFFF →
      patchJump pre.length ⟨pre ++ a :: b :: suf, e, k⟩ =
        ⟨pre ++ suf.length / 256 :: suf.length % 256 :: suf, e, k⟩) ∧
    (0xFFFF < suf.length →
      (patchJump pre.length ⟨pre ++ a :: b :: suf, e, k⟩).hadError = true) ∧
    (loopStart ≤ code.length + 1 →
      (code.length + 3 - loopStart ≤ 0xFFFF →
        emitLoop loopStart ⟨code, e2, []⟩ =
          ⟨code ++ [OP_LOOP, (code.length + 3 - loopStart) / 256,
            (code.length + 3 - loopStart) % 256], e2, []⟩) ∧
      (0xFFFF < code.length + 3 - loopStart →
        (emitLoop loopStart ⟨code, e2, []⟩).hadError = true)) := by
  refine ⟨(patchJump_spec pre a b suf e k).1, (patchJump_spec pre a b suf e k).2, ?_⟩
  intro hls
  have hlen : (emitByte OP_LOOP code).length = code.length + 1 := by
    simp [emitByte, krk_writeChunk]
  have hoff : (emitByte OP_LOOP code).length - loopStart + 2 =
      code.length + 3 - loopStart := by
    rw [hlen]; omega
  constructor
  · intro h
    simp only [emitLoop, patchContinues_nil, errorState, hoff]
    rw [if_neg (by omega)]
    simp only [emitBytes, emitByte, krk_writeChunk, OP_LOOP]
    rw [Nat.shiftRight_eq_div_pow]
    have h1 : (code.length + 3 - loopStart) / 2 ^ 8 % 256 =
        (code.length + 3 - loopStart) / 256 := by
      have : (code.length + 3 - loopStart) / 256 < 256 := by omega
      simp [Nat.mod_eq_of_lt this]
    rw [h1]
    simp
  · intro h
    simp only [emitLoop, patchContinues_nil, errorState, hoff]
    rw [if_pos (by omega)]

/-- Witness for `jump_operands_checked_and_big_endian`: patching a jump over
a two-byte body writes distance 2, and a loop emitted at offset 4 of a
six-byte chunk writes distance 5, both high byte first. -/
theorem jump_operands_checked_and_big_endian_witness :
    patchJump 1 ⟨[10, 255, 255, 30, 30], false, []⟩ =
      ⟨[10, 2 / 256, 2 % 256, 30, 30], false, []⟩ ∧
    emitLoop 4 ⟨[1, 2, 3, 4, 5, 6], true, []⟩ =
      ⟨[1, 2, 3, 4, 5, 6] ++ [OP_LOOP, 5 / 256, 5 % 256], true, []⟩ := by
  constructor
  · exact ((jump_operands_checked_and_big_endian [10] 255 255 [30, 30] false []
      [] false 0).1 (by decide))
  · exact (((jump_operands_checked_and_big_endian [] 0 0 [] false []
      [1, 2, 3, 4, 5, 6] true 4).2.2 (by decide)).1 (by decide))

/-! ## C1: the iterator-loop exit test -/

/-- C1, counterexample.  The claim asserts the loop-exit comparison of the
produced value against the iterator is performed with the `IS` opcode; but
the lowering emitted by `forStatement` and `comprehension` — here with the
`__iter__` constant at index 5, the iterator local in slot 1 and the loop
variable in slot 0 — contains no `OP_IS` byte at all: the comparison after
the second `OP_GET_LOCAL 1` is `OP_EQUAL`, the opcode of `==`. -/
theorem forIterLoop_exit_test_is_OP_EQUAL_cex :
    forIterLoopOps 5 1 0 1 [] =
      [OP_GET_PROPERTY, 5, OP_CALL, 0, OP_SET_LOCAL, 1, OP_GET_LOCAL, 1,
       OP_CALL, 0, OP_SET_LOCAL, 0, OP_GET_LOCAL, 1, OP_EQUAL,
       OP_JUMP_IF_TRUE, 255, 255, OP_POP] ∧
    (forIterLoopOps 5 1 0 1 []).contains OP_IS = false ∧
    OP_EQUAL ≠ OP_IS := by
  refine ⟨by rfl, by rfl, by decide⟩

/-- C1, amended: lowering `for VARS in EXPR:` (and a comprehension body)
emits the desugaring `it = EXPR.__iter__(); while True: v = it(); if v == it:
break; ...` — the loop-exit test comparing the produced value against the
iterator is performed with the `OP_EQUAL` opcode (value equality, which on
two references to the iterator object takes the pointer-equality fast path
of `krk_valuesEqual`), not with the `IS` opcode. -/
theorem forIterLoop_desugaring (ind it v : Nat) (code : List Nat)
    (h1 : ind < 256) (h2 : it < 256) (h3 : v < 256) :
    forIterLoopOps ind it v 1 code =
      code ++ [OP_GET_PROPERTY, ind, OP_CALL, 0, OP_SET_LOCAL, it,
        OP_GET_LOCAL, it, OP_CALL, 0, OP_SET_LOCAL, v, OP_GET_LOCAL, it,
        OP_EQUAL, OP_JUMP_IF_TRUE, 255, 255, OP_POP] := by
  simp only [forIterLoopOps, forUnpackOps, EMIT_CONSTANT_OP, emitBytes,
    emitByte, krk_writeChunk]
  rw [if_pos h1, if_pos h2, if_pos h2, if_pos h3, if_pos h2]
  rw [if_neg (by omega : ¬(1 : Nat) > 1)]
  simp [Nat.mod_eq_of_lt, Nat.mod_eq_of_lt h1, Nat.mod_eq_of_lt h2,
    Nat.mod_eq_of_lt h3, OP_GET_PROPERTY, OP_CALL, OP_SET_LOCAL, OP_GET_LOCAL,
    OP_EQUAL, OP_JUMP_IF_TRUE, OP_POP]
  rw [if_pos h3]
  simp

/-- Witness for `forIterLoop_desugaring` with the `__iter__` constant at
index 7, the iterator local in slot 2 and the loop variable in slot 1. -/
theorem forIterLoop_desugaring_witness :
    forIterLoopOps 7 2 1 1 [OP_NONE] =
      [OP_NONE] ++ [OP_GET_PROPERTY, 7, OP_CALL, 0, OP_SET_LOCAL, 2,
        OP_GET_LOCAL, 2, OP_CALL, 0, OP_SET_LOCAL, 1, OP_GET_LOCAL, 2,
        OP_EQUAL, OP_JUMP_IF_TRUE, 255, 255, OP_POP] :=
  forIterLoop_desugaring 7 2 1 [OP_NONE] (by decide) (by decide) (by decide)

/-! ## C7: the `with` statement -/

/-- C7, counterexample.  The claim asserts that several `with` clauses on one
line are accepted and compiled as nested blocks; but `withStatement` parses
exactly one clause (its body opens with the comment `TODO: Multiple items,
I'm feeling lazy.`) and, right after the optional `as NAME`, demands a `:` —
so a comma introducing a second context manager is a syntax error. -/
theorem withStatement_rejects_second_clause_cex :
    withStatementTail [Tok.tCOMMA, Tok.tIDENTIFIER, Tok.tCOLON] =
      Except.error "Expected colon after with statement" := by
  rfl

/-- C7, amended: compiling `with EXPR as N:` emits `OP_PUSH_WITH` carrying a
handler target (patched to point just past the body, where the normal-exit
`OP_CLEANUP_WITH` sits, with the compiled context manager left on the stack
below the handler); but several `with` clauses on one line are not accepted:
after the single clause the compiler demands a `:`, so a following comma is
a syntax error, not a nested `with` block. -/
theorem withStatement_emit_and_single_clause (code body : List Nat) (e : Bool)
    (k : List Nat) (hb : body.length ≤ 0xFFFF) :
    (withStatementEmit body ⟨code, e, k⟩).code =
      code ++ OP_PUSH_WITH :: body.length / 256 :: body.length % 256 :: body
        ++ [OP_CLEANUP_WITH] ∧
    (withStatementEmit body ⟨code, e, k⟩).hadError = e ∧
    (∀ rest : List Tok, withStatementTail (Tok.tCOMMA :: rest) =
      Except.error "Expected colon after with statement") := by
  have hemit : emitJump OP_PUSH_WITH ⟨code, e, k⟩ =
      ((code ++ [OP_PUSH_WITH]).length,
        ⟨(code ++ [OP_PUSH_WITH]) ++ 255 :: 255 :: [], e, k⟩) := by
    simp [emitJump, emitBytes, emitByte, krk_writeChunk, OP_PUSH_WITH]
  have happ : ((code ++ [OP_PUSH_WITH]) ++ 255 :: 255 :: []) ++ body =
      (code ++ [OP_PUSH_WITH]) ++ 255 :: 255 :: body := by simp
  have hpatch := (patchJump_spec (code ++ [OP_PUSH_WITH]) 255 255 body e k).1 hb
  simp only [List.length_append, List.length_cons, List.length_nil,
    List.append_assoc, List.cons_append, List.nil_append] at hpatch
  refine ⟨?_, ?_, fun rest => rfl⟩ <;>
    simp [withStatementEmit, hemit, happ, hpatch, emitByte, krk_writeChunk,
      OP_CLEANUP_WITH]

/-- Witness for `withStatement_emit_and_single_clause` around a two-byte
body. -/
theorem withStatement_emit_and_single_clause_witness :
    (withStatementEmit [OP_NONE, OP_POP] ⟨[OP_TRUE], false, []⟩).code =
      [OP_TRUE] ++ OP_PUSH_WITH :: 2 / 256 :: 2 % 256 :: [OP_NONE, OP_POP]
        ++ [OP_CLEANUP_WITH] :=
  (withStatement_emit_and_single_clause [OP_TRUE] [OP_NONE, OP_POP] false []
    (by decide)).1

/-! ## C4 and C10: value equality and value identity -/

/-- A concrete instantiation of the abstract object-equality tail: user
`__eq__` dispatch that answers false and raises nothing (used to close the
statements that need a specific tail). -/
def noObjEq : KrkValue → KrkValue → Bool × Bool := fun _ _ => (false, false)

/-- The common numeric value of the cross-promoted variants. -/
def numVal : KrkValue → Option ℚ
  | KrkValue.vInteger i => some (i : ℚ)
  | KrkValue.vFloating f => some f
  | KrkValue.vBoolean b => some ((boolToInt b : Int) : ℚ)
  | KrkValue.vNone => none
  | KrkValue.vHandler _ _ => none
  | KrkValue.vKwargs _ => none
  | KrkValue.vObject _ => none

/-- C4, counterexample.  The claim says comparing two `Handler` values or two
`Kwargs` values "yields equality by kind without raising an error"; but
`krk_valuesEqual` compares the integer payloads of two `Kwargs` values (the
`VAL_KWARGS` case falls through to `VAL_INTEGER`), so `Kwargs(0)` and
`Kwargs(1)` are unequal, and the `VAL_HANDLER` case invokes
`krk_runtimeError(vm.exceptions->valueError, "Invalid value")`, so comparing
two `Handler` values raises an error (and yields 0). -/
theorem valuesEqual_kwargs_handler_cex :
    (krk_valuesEqual noObjEq (KrkValue.vKwargs 0) (KrkValue.vKwargs 1)).1 = false ∧
    (krk_valuesEqual noObjEq (KrkValue.vHandler 0 0) (KrkValue.vHandler 0 0)).2 = true := by
  exact ⟨rfl, rfl⟩

/-- C4, amended: value equality is cross-promoted across the numeric
variants (an `Integer`, `Floating` or `Boolean` value equals a value of
another of these variants exactly when their numeric values coincide,
without raising); `None` always equals `None` and equals no other non-object
value; a `Kwargs` value equals exactly the `Kwargs` values with the same
integer payload, and equals no value of any other kind, never raising; and
comparing two `Handler` values raises a `ValueError` and yields false (a
`Handler` also equals no non-object, non-`Kwargs` value of another kind). -/
theorem krk_valuesEqual_spec (objEq : KrkValue → KrkValue → Bool × Bool) :
    (∀ a b p q, numVal a = some p → numVal b = some q →
      ((krk_valuesEqual objEq a b).1 = true ↔ p = q) ∧
        (krk_valuesEqual objEq a b).2 = false) ∧
    krk_valuesEqual objEq KrkValue.vNone KrkValue.vNone = (true, false) ∧
    (∀ b, b.isObject = false → b ≠ KrkValue.vNone →
      krk_valuesEqual objEq KrkValue.vNone b = (false, false)) ∧
    (∀ x y : Int,
      krk_valuesEqual objEq (KrkValue.vKwargs x) (KrkValue.vKwargs y) =
        (x == y, false)) ∧
    (∀ x : Int, ∀ b, b.isKwargs = false →
      krk_valuesEqual objEq (KrkValue.vKwargs x) b = (false, false) ∧
      krk_valuesEqual objEq b (KrkValue.vKwargs x) = (false, false)) ∧
    (∀ k t k2 t2 : Nat,
      krk_valuesEqual objEq (KrkValue.vHandler k t) (KrkValue.vHandler k2 t2) =
        (false, true)) ∧
    (∀ k t : Nat, ∀ b, b.isObject = false → b.isKwargs = false →
      b.vtype ≠ KrkValue.Tag.tHANDLER →
      krk_valuesEqual objEq (KrkValue.vHandler k t) b = (false, false) ∧
      krk_valuesEqual objEq b (KrkValue.vHandler k t) = (false, false)) := by
  refine ⟨?_, rfl, ?_, fun x y => rfl, ?_, fun k t k2 t2 => rfl, ?_⟩
  · intro a b p q hp hq
    cases a with
    | vInteger x =>
      simp only [numVal, Option.some.injEq] at hp
      cases b with
      | vInteger y =>
        simp only [numVal, Option.some.injEq] at hq
        subst hp; subst hq
        refine ⟨?_, rfl⟩
        show (x == y) = true ↔ (x : ℚ) = (y : ℚ)
        simp
      | vFloating y =>
        simp only [numVal, Option.some.injEq] at hq
        subst hp; subst hq
        refine ⟨?_, rfl⟩
        show ((x : ℚ) == y) = true ↔ (x : ℚ) = y
        simp
      | vBoolean y =>
        simp only [numVal, Option.some.injEq] at hq
        subst hp; subst hq
        refine ⟨?_, rfl⟩
        show (x == boolToInt y) = true ↔ (x : ℚ) = ((boolToInt y : Int) : ℚ)
        simp
      | vNone => exact Option.noConfusion hq
      | vHandler k t => exact Option.noConfusion hq
      | vKwargs i => exact Option.noConfusion hq
      | vObject o => exact Option.noConfusion hq
    | vFloating x =>
      simp only [numVal, Option.some.injEq] at hp
      cases b with
      | vInteger y =>
        simp only [numVal, Option.some.injEq] at hq
        subst hp; subst hq
        refine ⟨?_, rfl⟩
        show (x == (y : ℚ)) = true ↔ x = (y : ℚ)
        simp
      | vFloating y =>
        simp only [numVal, Option.some.injEq] at hq
        subst hp; subst hq
        refine ⟨?_, rfl⟩
        show (x == y) = true ↔ x = y
        simp
      | vBoolean y =>
        simp only [numVal, Option.some.injEq] at hq
        subst hp; subst hq
        refine ⟨?_, rfl⟩
        show (x == ((boolToInt y : Int) : ℚ)) = true ↔
          x = ((boolToInt y : Int) : ℚ)
        simp
      | vNone => exact Option.noConfusion hq
      | vHandler k t => exact Option.noConfusion hq
      | vKwargs i => exact Option.noConfusion hq
      | vObject o => exact Option.noConfusion hq
    | vBoolean x =>
      simp only [numVal, Option.some.injEq] at hp
      cases b with
      | vInteger y =>
        simp only [numVal, Option.some.injEq] at hq
        subst hp; subst hq
        refine ⟨?_, rfl⟩
        show (boolToInt x == y) = true ↔ ((boolToInt x : Int) : ℚ) = (y : ℚ)
        simp
      | vFloating y =>
        simp only [numVal, Option.some.injEq] at hq
        subst hp; subst hq
        refine ⟨?_, rfl⟩
        show (((boolToInt x : Int) : ℚ) == y) = true ↔
          ((boolToInt x : Int) : ℚ) = y
        simp
      | vBoolean y =>
        simp only [numVal, Option.some.injEq] at hq
        subst hp; subst hq
        refine ⟨?_, rfl⟩
        show (x == y) = true ↔ ((boolToInt x : Int) : ℚ) = ((boolToInt y : Int) : ℚ)
        cases x <;> cases y <;> simp [boolToInt]
      | vNone => exact Option.noConfusion hq
      | vHandler k t => exact Option.noConfusion hq
      | vKwargs i => exact Option.noConfusion hq
      | vObject o => exact Option.noConfusion hq
    | vNone => exact Option.noConfusion hp
    | vHandler k t => exact Option.noConfusion hp
    | vKwargs i => exact Option.noConfusion hp
    | vObject o => exact Option.noConfusion hp
  · intro b hobj hne
    cases b with
    | vNone => exact absurd rfl hne
    | vObject o => simp [KrkValue.isObject] at hobj
    | vBoolean x => rfl
    | vInteger x => rfl
    | vFloating x => rfl
    | vHandler k t => rfl
    | vKwargs i => rfl
  · intro x b hkw
    cases b with
    | vKwargs i => simp [KrkValue.isKwargs] at hkw
    | vBoolean y => exact ⟨rfl, rfl⟩
    | vNone => exact ⟨rfl, rfl⟩
    | vInteger y => exact ⟨rfl, rfl⟩
    | vFloating y => exact ⟨rfl, rfl⟩
    | vHandler k t => exact ⟨rfl, rfl⟩
    | vObject o => exact ⟨rfl, rfl⟩
  · intro k t b hobj hkw htag
    cases b with
    | vHandler k2 t2 => simp [KrkValue.vtype] at htag
    | vKwargs i => simp [KrkValue.isKwargs] at hkw
    | vObject o => simp [KrkValue.isObject] at hobj
    | vBoolean y => exact ⟨rfl, rfl⟩
    | vNone => exact ⟨rfl, rfl⟩
    | vInteger y => exact ⟨rfl, rfl⟩
    | vFloating y => exact ⟨rfl, rfl⟩

/-- Witness for `krk_valuesEqual_spec`: `Integer 2` equals `Floating 2` and
`None` does not equal `Integer 0`, with no error raised in either case. -/
theorem krk_valuesEqual_spec_witness :
    ((krk_valuesEqual noObjEq (KrkValue.vInteger 2) (KrkValue.vFloating 2)).1 = true ↔
      ((2 : Int) : ℚ) = (2 : ℚ)) ∧
    krk_valuesEqual noObjEq KrkValue.vNone (KrkValue.vInteger 0) = (false, false) := by
  constructor
  · exact ((krk_valuesEqual_spec noObjEq).1 (KrkValue.vInteger 2)
      (KrkValue.vFloating 2) ((2 : Int) : ℚ) (2 : ℚ) rfl rfl).1
  · exact ((krk_valuesEqual_spec noObjEq).2.2.1 (KrkValue.vInteger 0) rfl
      (by decide))

/-- C10: `krk_valuesSame`, the identity test behind `is`, returns false
whenever the two type tags differ; it compares two heap objects by identity
alone — the result is the pointer comparison, unchanged under every possible
`__eq__` dispatch behaviour; on two non-object values of the same tag it
coincides with `krk_valuesEqual`; and in particular two numerically equal
`Integer` values are `is`-identical. -/
theorem krk_valuesSame_spec (objEq objEq2 : KrkValue → KrkValue → Bool × Bool) :
    (∀ a b, a.vtype ≠ b.vtype → krk_valuesSame objEq a b = false) ∧
    (∀ x y : Nat,
      krk_valuesSame objEq (KrkValue.vObject x) (KrkValue.vObject y) = (x == y) ∧
      krk_valuesSame objEq (KrkValue.vObject x) (KrkValue.vObject y) =
        krk_valuesSame objEq2 (KrkValue.vObject x) (KrkValue.vObject y)) ∧
    (∀ a b, a.vtype = b.vtype → a.isObject = false →
      krk_valuesSame objEq a b = (krk_valuesEqual objEq a b).1) ∧
    (∀ x y : Int, x = y →
      krk_valuesSame objEq (KrkValue.vInteger x) (KrkValue.vInteger y) = true) := by
  refine ⟨?_, fun x y => ⟨rfl, rfl⟩, ?_, ?_⟩
  · intro a b h
    simp [krk_valuesSame, h]
  · intro a b htag hobj
    cases a <;> cases b <;>
      first
        | rfl
        | (simp [KrkValue.isObject] at hobj; done)
        | (simp [KrkValue.vtype] at htag; done)
  · intro x y h
    subst h
    simp [krk_valuesSame, krk_valuesEqual]

/-- Witness for `krk_valuesSame_spec`: two `Integer 7` values are
`is`-identical, and `Integer 7` is never identical to `Floating 7`. -/
theorem krk_valuesSame_spec_witness :
    krk_valuesSame noObjEq (KrkValue.vInteger 7) (KrkValue.vInteger 7) = true ∧
    krk_valuesSame noObjEq (KrkValue.vInteger 7) (KrkValue.vFloating 7) = false := by
  constructor
  · exact (krk_valuesSame_spec noObjEq noObjEq).2.2.2 7 7 rfl
  · exact (krk_valuesSame_spec noObjEq noObjEq).1 (KrkValue.vInteger 7)
      (KrkValue.vFloating 7) (by decide)

/-! ## C5 and C6: the iteration protocol and `generator.send` -/

theorem setiterator_call_done (it : SetIterator) (h : it.keys.length ≤ it.i) :
    setiterator_call it = (KrkValue.vObject it.selfId, it) := by
  unfold setiterator_call
  rw [dif_pos (by omega : it.i ≥ it.keys.length)]

/-- One invocation of `setiterator.__call__` either finds the iterator
already exhausted and returns it unchanged, or finds only empty slots left,
advances to the capacity and returns the iterator itself, or yields the
first remaining live key — the head of the non-`Kwargs` keys at or past the
cursor — and advances just past it. -/
theorem setiterator_call_yield (it : SetIterator) :
    (it.keys.length ≤ it.i ∧
      setiterator_call it = (KrkValue.vObject it.selfId, it)) ∨
    ((it.keys.drop it.i).filter (fun k => !k.isKwargs) = [] ∧
      it.i ≤ it.keys.length ∧
      setiterator_call it =
        (KrkValue.vObject it.selfId, ⟨it.selfId, it.keys, it.keys.length⟩)) ∨
    (∃ v j, setiterator_call it = (v, ⟨it.selfId, it.keys, j⟩) ∧
      it.i < j ∧ j ≤ it.keys.length ∧
      (it.keys.drop it.i).filter (fun k => !k.isKwargs) =
        v :: ((it.keys.drop j).filter (fun k => !k.isKwargs))) := by
  by_cases hend : it.keys.length ≤ it.i
  · exact Or.inl ⟨hend, setiterator_call_done it hend⟩
  · have hlt : it.i < it.keys.length := by omega
    have hdrop : it.keys.drop it.i = it.keys[it.i] :: it.keys.drop (it.i + 1) :=
      List.drop_eq_getElem_cons hlt
    have hunfold : setiterator_call it =
        if it.keys[it.i].isKwargs then
          setiterator_call ⟨it.selfId, it.keys, it.i + 1⟩
        else (it.keys[it.i], ⟨it.selfId, it.keys, it.i + 1⟩) := by
      conv_lhs => unfold setiterator_call
      rw [dif_neg (by omega : ¬ it.i ≥ it.keys.length)]
      simp only [List.get_eq_getElem]
    by_cases hkw : it.keys[it.i].isKwargs
    · have ih := setiterator_call_yield ⟨it.selfId, it.keys, it.i + 1⟩
      dsimp only at ih
      rw [hunfold, if_pos hkw]
      have hfilter : (it.keys.drop it.i).filter (fun k => !k.isKwargs) =
          (it.keys.drop (it.i + 1)).filter (fun k => !k.isKwargs) := by
        rw [hdrop, List.filter_cons]
        simp [hkw]
      rcases ih with ⟨h1, h2⟩ | ⟨h1, h2, h3⟩ | ⟨v, j, h1, h2, h3, h4⟩
      · have hieq : it.i + 1 = it.keys.length := by omega
        refine Or.inr (Or.inl ⟨?_, by omega, ?_⟩)
        · rw [hfilter, List.drop_eq_nil_of_le (by omega)]
          rfl
        · rw [h2, hieq]
      · exact Or.inr (Or.inl ⟨by rw [hfilter]; exact h1, by omega, h3⟩)
      · exact Or.inr (Or.inr ⟨v, j, h1, by omega, h3, by rw [hfilter]; exact h4⟩)
    · rw [hunfold, if_neg hkw]
      refine Or.inr (Or.inr ⟨it.keys[it.i], it.i + 1, rfl, by omega,
        by omega, ?_⟩)
      rw [hdrop, List.filter_cons]
      simp [hkw]
termination_by it.keys.length - it.i
decreasing_by simp; omega

/-- C5: the exhaustion contract of the built-in iterator implementations.
For the set iterator: once the cursor has reached the table capacity,
`__call__` returns the iterator object itself and leaves the state
untouched, so every later invocation returns the iterator again; and each
invocation otherwise yields the head of the remaining live (non-`Kwargs`)
keys and advances past it, or — when only empty slots remain — moves to the
capacity and returns the iterator itself; so repeated invocation yields
exactly the stored elements and then the iterator forever.  For a
generator: a done generator (`ip = NULL`) returns itself unchanged under
every possible VM behaviour, so it keeps returning itself; and whenever the
resumed body runs off its end (the `Kwargs(0)` sentinel), `__call__`
returns the generator itself and marks it done. -/
theorem builtin_iterators_signal_exhaustion_by_self :
    (∀ it : SetIterator, it.keys.length ≤ it.i →
      setiterator_call it = (KrkValue.vObject it.selfId, it)) ∧
    (∀ it : SetIterator,
      (it.keys.length ≤ it.i ∧
        setiterator_call it = (KrkValue.vObject it.selfId, it)) ∨
      ((it.keys.drop it.i).filter (fun k => !k.isKwargs) = [] ∧
        it.i ≤ it.keys.length ∧
        setiterator_call it =
          (KrkValue.vObject it.selfId, ⟨it.selfId, it.keys, it.keys.length⟩)) ∨
      (∃ v j, setiterator_call it = (v, ⟨it.selfId, it.keys, j⟩) ∧
        it.i < j ∧ j ≤ it.keys.length ∧
        (it.keys.drop it.i).filter (fun k => !k.isKwargs) =
          v :: ((it.keys.drop j).filter (fun k => !k.isKwargs)))) ∧
    (∀ (runNext : Generator → Option KrkValue → RunOutcome) (g : Generator)
      (sv : Option KrkValue), g.ip = none →
      generator_call runNext g sv = (KrkValue.vObject g.selfId, g)) ∧
    (∀ (runNext : Generator → Option KrkValue → RunOutcome) (g : Generator)
      (sv : Option KrkValue), isKwargsZero (runNext g sv).result = true →
      (generator_call runNext g sv).1 = KrkValue.vObject g.selfId ∧
      (generator_call runNext g sv).2.ip = none) := by
  refine ⟨setiterator_call_done, setiterator_call_yield, ?_, ?_⟩
  · intro runNext g sv h
    simp [generator_call, h]
  · intro runNext g sv h
    by_cases hip : g.ip = none
    · constructor <;> simp [generator_call, hip]
    · constructor <;> simp [generator_call, hip, h]

/-- A trivial VM-behaviour oracle for witnesses: the resumed body
immediately reports the `Kwargs(0)` end-of-generator sentinel. -/
def runFinish : Generator → Option KrkValue → RunOutcome :=
  fun _ _ => ⟨KrkValue.vKwargs 0, false, KrkValue.vNone, 0, []⟩

/-- An already-done generator, for witnesses. -/
def doneGen : Generator :=
  ⟨3, [], none, false, true, KrkValue.vNone⟩

/-- Witness for `builtin_iterators_signal_exhaustion_by_self`: an exhausted
set iterator returns itself with its state unchanged, and a done generator
returns itself under the `runFinish` oracle. -/
theorem builtin_iterators_signal_exhaustion_by_self_witness :
    setiterator_call ⟨9, [KrkValue.vInteger 1], 1⟩ =
      (KrkValue.vObject 9, ⟨9, [KrkValue.vInteger 1], 1⟩) ∧
    generator_call runFinish doneGen none = (KrkValue.vObject 3, doneGen) := by
  constructor
  · exact builtin_iterators_signal_exhaustion_by_self.1
      ⟨9, [KrkValue.vInteger 1], 1⟩ (by decide)
  · exact builtin_iterators_signal_exhaustion_by_self.2.2.1 runFinish doneGen
      none rfl

/-- C6: `generator.send(x)` on a generator that has not yet been started
raises a `TypeError` exactly when `x` is not `None`; sending `None` does not
raise and is precisely a resume through `generator.__call__`. -/
theorem generator_send_spec (runNext : Generator → Option KrkValue → RunOutcome)
    (g : Generator) (x : KrkValue) (h : g.started = false) :
    (x ≠ KrkValue.vNone →
      generator_send runNext g x = Except.error (KrkError.typeError
        "Can not send non-None value to just-started generator")) ∧
    (x = KrkValue.vNone →
      generator_send runNext g x =
        Except.ok (generator_call runNext g (some x))) := by
  constructor
  · intro hne
    simp [generator_send, h, hne]
  · intro he
    subst he
    simp [generator_send]

/-- A fresh, never-started generator, for witnesses. -/
def freshGen : Generator :=
  ⟨0, [], some 0, false, false, KrkValue.vNone⟩

/-- Witness for `generator_send_spec`: the first `send(1)` raises
`TypeError`, the first `send(None)` resumes. -/
theorem generator_send_spec_witness :
    generator_send runFinish freshGen (KrkValue.vInteger 1) =
      Except.error (KrkError.typeError
        "Can not send non-None value to just-started generator") ∧
    generator_send runFinish freshGen KrkValue.vNone =
      Except.ok (generator_call runFinish freshGen (some KrkValue.vNone)) := by
  constructor
  · exact (generator_send_spec runFinish freshGen (KrkValue.vInteger 1) rfl).1
      (by decide)
  · exact (generator_send_spec runFinish freshGen KrkValue.vNone rfl).2 rfl

/-! ## C8: indentation tokens -/

/-- The number of consecutive spaces in `src` starting at position `i`. -/
def countSpaces (src : List Char) (i : Nat) : Nat :=
  if h : i < src.length ∧ src.getD i nulChar = ' ' then
    countSpaces src (i + 1) + 1
  else 0
termination_by src.length - i
decreasing_by omega

theorem countSpaces_stop (src : List Char) (i : Nat) :
    src.getD (i + countSpaces src i) nulChar ≠ ' ' := by
  by_cases h : i < src.length ∧ src.getD i nulChar = ' '
  · have ih := countSpaces_stop src (i + 1)
    rw [countSpaces, dif_pos h]
    have harr : i + (countSpaces src (i + 1) + 1) =
        (i + 1) + countSpaces src (i + 1) := by omega
    rw [harr]
    exact ih
  · rw [countSpaces, dif_neg h, Nat.add_zero]
    intro hc
    by_cases hl : i < src.length
    · exact h ⟨hl, hc⟩
    · rw [List.getD_eq_default _ _ (by omega)] at hc
      exact absurd hc (by decide)
termination_by src.length - i
decreasing_by omega

theorem indentLoop_eq (s : Scanner) :
    indentLoop s = { s with cur := s.cur + countSpaces s.src s.cur } := by
  by_cases h : atEnd s = false ∧ peekc s = ' '
  · have hlt : s.cur < s.src.length := by
      have := h.1
      simp only [atEnd, decide_eq_false_iff_not, not_le] at this
      exact this
    have ih := indentLoop_eq { s with cur := s.cur + 1 }
    rw [indentLoop, dif_pos h, ih]
    have hc : countSpaces s.src s.cur = countSpaces s.src (s.cur + 1) + 1 := by
      rw [countSpaces, dif_pos ⟨hlt, h.2⟩]
    simp only [hc]
    congr 1
    omega
  · rw [indentLoop, dif_neg h]
    have hc : countSpaces s.src s.cur = 0 := by
      rw [countSpaces, dif_neg]
      intro hcon
      exact h ⟨by simp [atEnd]; omega, hcon.2⟩
    rw [hc, Nat.add_zero]
termination_by s.src.length - s.cur
decreasing_by
  simp only [atEnd, decide_eq_false_iff_not, not_le] at h
  simp
  omega

/-- The token type produced by `identifierType` is a keyword or
`TOKEN_IDENTIFIER`, never `TOKEN_INDENTATION`. -/
theorem checkKeyword_ne_indentation (s : Scanner) (n : Nat) (rest : List Char)
    (t : KrkTokenType) (h : t ≠ KrkTokenType.tINDENTATION) :
    checkKeyword s n rest t ≠ KrkTokenType.tINDENTATION := by
  unfold checkKeyword
  split_ifs with hck
  · exact h
  · decide

theorem ite_ne_tok {c : Prop} [Decidable c] {a b x : KrkTokenType}
    (ha : a ≠ x) (hb : b ≠ x) : (if c then a else b) ≠ x := by
  split
  · exact ha
  · exact hb

theorem identifierType_ne_indentation (s : Scanner) :
    identifierType s ≠ KrkTokenType.tINDENTATION := by
  simp only [identifierType]
  repeat' apply ite_ne_tok
  all_goals
    first
      | decide
      | exact checkKeyword_ne_indentation _ _ _ _ (by decide)

theorem scanIdentifier_ne_indentation (s : Scanner) :
    (scanIdentifier s).1.type ≠ KrkTokenType.tINDENTATION := by
  unfold scanIdentifier
  simp only [makeToken]
  exact identifierType_ne_indentation (identLoop s)

theorem scanNumber_type (c : Char) (s : Scanner) :
    (scanNumber c s).1.type = KrkTokenType.tNUMBER := by
  simp only [scanNumber]
  split_ifs <;> rfl

theorem scanString_type (s : Scanner) :
    (scanString s).1.type = KrkTokenType.tERROR ∨
    (scanString s).1.type = KrkTokenType.tSTRING := by
  simp only [scanString]
  split_ifs <;> simp [makeToken, errorToken]

theorem scanCodepoint_type (s : Scanner) :
    (scanCodepoint s).1.type = KrkTokenType.tRETRY ∨
    (scanCodepoint s).1.type = KrkTokenType.tCODEPOINT ∨
    (scanCodepoint s).1.type = KrkTokenType.tERROR := by
  by_cases h : peekc s ≠ aposChar ∧ atEnd s = false
  · rw [scanCodepoint, dif_pos h]
    by_cases hb : peekc (if peekc s = backslashChar then
        { s with cur := s.cur + 1 } else s) = '\n'
    · rw [if_pos hb]
      left
      rfl
    · rw [if_neg hb]
      exact scanCodepoint_type _
  · rw [scanCodepoint, dif_neg h]
    by_cases hae : atEnd s = true
    · rw [if_pos hae]
      right; right
      rfl
    · rw [if_neg hae]
      right; left
      rfl
termination_by s.src.length - s.cur
decreasing_by
  have h2 := h.2
  simp only [atEnd, decide_eq_false_iff_not, not_le] at h2
  split <;> simp <;> omega

theorem twoCharToken_type (c : Char) (a b : KrkTokenType) (s : Scanner) :
    (twoCharToken c a b s).1.type = a ∨ (twoCharToken c a b s).1.type = b := by
  simp only [twoCharToken, matchChar]
  split_ifs <;> simp [makeToken]

/-- No token produced by the general (non-start-of-line) branch of
`krk_scanToken` is an `INDENTATION` token: only `makeIndentation` creates
that type. -/
theorem ite_pair_ne {c : Prop} [Decidable c] {p q : KrkToken × Scanner}
    {x : KrkTokenType} (hp : p.1.type ≠ x) (hq : q.1.type ≠ x) :
    (if c then p else q).1.type ≠ x := by
  split
  · exact hp
  · exact hq

theorem scanToken_else_ne_indentation (s : Scanner)
    (h : ¬(s.startOfLine = true ∧ peekc s = ' ')) :
    (krk_scanToken s).1.type ≠ KrkTokenType.tINDENTATION := by
  simp only [krk_scanToken]
  rw [if_neg h]
  repeat' apply ite_pair_ne
  all_goals
    first
      | (simp [makeToken, errorToken]; done)
      | exact scanIdentifier_ne_indentation _
      | (rw [scanNumber_type]; decide)
      | (rcases scanString_type _ with ht | ht <;> rw [ht] <;> decide)
      | (rcases scanCodepoint_type _ with ht | ht | ht <;> rw [ht] <;> decide)
      | (rcases twoCharToken_type _ _ _ _ with ht | ht <;> rw [ht] <;> decide)

/-- C8: at the start of a line whose first character is a space,
`krk_scanToken` hands the leading spaces to `makeIndentation`.  When the
character right after those spaces is a newline (a blank indentation line),
the result is an `ERROR` token; otherwise the scanner produces exactly one
`INDENTATION` token whose length equals the number of leading spaces,
leaves the cursor on the first non-space character, and the next
`krk_scanToken` call — whatever the rest of the line holds — does not
produce another `INDENTATION` token. -/
theorem scanToken_indentation_spec (s : Scanner) (hsol : s.startOfLine = true)
    (hsp : peekc s = ' ') :
    (s.src.getD (s.cur + countSpaces s.src s.cur) nulChar = '\n' →
      (krk_scanToken s).1.type = KrkTokenType.tERROR) ∧
    (s.src.getD (s.cur + countSpaces s.src s.cur) nulChar ≠ '\n' →
      (krk_scanToken s).1.type = KrkTokenType.tINDENTATION ∧
      (krk_scanToken s).1.length = countSpaces s.src s.cur ∧
      (krk_scanToken s).2.cur = s.cur + countSpaces s.src s.cur ∧
      (krk_scanToken (krk_scanToken s).2).1.type ≠ KrkTokenType.tINDENTATION) := by
  have hscan : krk_scanToken s = makeIndentation { s with start := s.cur } := by
    unfold krk_scanToken
    rw [if_pos ⟨hsol, hsp⟩]
  have hil : indentLoop { s with start := s.cur } =
      { s with start := s.cur, cur := s.cur + countSpaces s.src s.cur } := by
    rw [indentLoop_eq]
  have hmk : makeIndentation { s with start := s.cur } =
      if s.src.getD (s.cur + countSpaces s.src s.cur) nulChar = '\n' then
        (errorToken "Empty indentation line is invalid."
          { s with start := s.cur, cur := s.cur + countSpaces s.src s.cur },
         { s with start := s.cur, cur := s.cur + countSpaces s.src s.cur })
      else
        (makeToken KrkTokenType.tINDENTATION
          { s with start := s.cur, cur := s.cur + countSpaces s.src s.cur },
         { s with start := s.cur, cur := s.cur + countSpaces s.src s.cur }) := by
    unfold makeIndentation
    rw [hil]
    rfl
  constructor
  · intro hnl
    rw [hscan, hmk, if_pos hnl]
    rfl
  · intro hnl
    rw [hscan, hmk, if_neg hnl]
    refine ⟨rfl, ?_, rfl, ?_⟩
    · show s.cur + countSpaces s.src s.cur - s.cur = countSpaces s.src s.cur
      omega
    · apply scanToken_else_ne_indentation
      intro hcon
      exact countSpaces_stop s.src s.cur hcon.2

/-- Witness for `scanToken_indentation_spec`: scanning the line body
consisting of two spaces and an `x` at the start of a line produces one
`INDENTATION` token of length 2. -/
theorem scanToken_indentation_spec_witness :
    (krk_scanToken ⟨[' ', ' ', 'x'], 0, 0, 1, true⟩).1.type =
      KrkTokenType.tINDENTATION ∧
    (krk_scanToken ⟨[' ', ' ', 'x'], 0, 0, 1, true⟩).1.length = 2 := by
  have hk : countSpaces [' ', ' ', 'x'] 0 = 2 := by
    rw [countSpaces, dif_pos (by decide), countSpaces, dif_pos (by decide),
      countSpaces, dif_neg (by decide)]
  have h := (scanToken_indentation_spec ⟨[' ', ' ', 'x'], 0, 0, 1, true⟩ rfl
    (by decide)).2
  rw [hk] at h
  have h2 := h (by decide)
  exact ⟨h2.1, h2.2.1⟩

end Kuroko
